import Mathlib

/-!
Shallow embedding of `src/api/meli-scan-worker.js` (keloke-trends-worker):
a batch worker that claims pending scan jobs, fetches MercadoLibre listing
data (public category search or seller search with a 401-triggered token
refresh), normalizes items and upserts them, tracking job status.

External collaborators (Supabase queries, HTTP fetch, the OAuth endpoint,
wall-clock time) are modelled as an oracle environment `Env`; every
database mutation and outbound call the worker performs is recorded in an
explicit `Effect` trace.
-/

namespace MeliScan

/-- JSON-like values, the dynamic data the worker manipulates
(request payloads, marketplace responses, items). -/
inductive JValue where
  | jnull : JValue
  | jbool (b : Bool) : JValue
  | jnum (n : Int) : JValue
  | jstr (s : String) : JValue
  | jarr (xs : List JValue) : JValue
  | jobj (fields : List (String × JValue)) : JValue
deriving Repr

/-- JS property access `v.k` on a parsed-JSON value: defined (`some`) only
when `v` is an object with field `k`; everything else gives `undefined`
(`none`). A present field bound to JSON `null` is `some .jnull`. -/
def jsGetField (v : JValue) (k : String) : Option JValue :=
  match v with
  | .jobj fs => fs.lookup k
  | _ => none

/-- `Array.isArray` projection: the element list when the value is an array. -/
def asArray : JValue → Option (List JValue)
  | .jarr xs => some xs
  | _ => none

/-- JS nullish coalescing `x ?? y` treats both `undefined` (`none`) and
`null` (`some .jnull`) as absent. -/
def jsCoalesce : Option JValue → Option JValue
  | some .jnull => none
  | x => x

mutual
/-- JS array-to-string conversion of one element (`null`/`undefined`
become the empty string inside a join). -/
def jsElemToString : JValue → String
  | .jnull => ""
  | .jbool b => cond b "true" "false"
  | .jnum n => toString n
  | .jstr s => s
  | .jarr xs => jsArrToString xs
  | .jobj _ => "[object Object]"

/-- JS `Array.prototype.toString`: elements joined by commas. -/
def jsArrToString : List JValue → String
  | [] => ""
  | [x] => jsElemToString x
  | x :: y :: xs => jsElemToString x ++ "," ++ jsArrToString (y :: xs)
end

/-- JS `String(v)` conversion. -/
def jsToString : JValue → String
  | .jnull => "null"
  | .jbool b => cond b "true" "false"
  | .jnum n => toString n
  | .jstr s => s
  | .jarr xs => jsArrToString xs
  | .jobj _ => "[object Object]"

/-- JS `String(v)` where `v` may be `undefined` (an absent field). -/
def jsToStringU : Option JValue → String
  | none => "undefined"
  | some v => jsToString v

/-- JS truthiness of a possibly-absent value (`if (x)`). -/
def jsTruthy : Option JValue → Bool
  | none => false
  | some .jnull => false
  | some (.jbool b) => b
  | some (.jnum n) => decide (n ≠ 0)
  | some (.jstr s) => decide (s ≠ "")
  | some (.jarr _) => true
  | some (.jobj _) => true

/-- JSON string escaping (quote, backslash, the common control characters). -/
def escapeJsonChar (c : Char) : String :=
  if c = '"' then "\\\""
  else if c = '\\' then "\\\\"
  else if c = Char.ofNat 10 then "\\n"
  else if c = Char.ofNat 13 then "\\r"
  else if c = Char.ofNat 9 then "\\t"
  else String.singleton c

def escapeJson (s : String) : String :=
  String.join (s.data.map escapeJsonChar)

mutual
/-- `JSON.stringify` (on parsed-JSON values, so no `undefined` members). -/
def jsonStringify : JValue → String
  | .jnull => "null"
  | .jbool b => cond b "true" "false"
  | .jnum n => toString n
  | .jstr s => "\"" ++ escapeJson s ++ "\""
  | .jarr xs => "[" ++ jsonStringifyList xs ++ "]"
  | .jobj fs => "\x7b" ++ jsonStringifyFields fs ++ "\x7d"

def jsonStringifyList : List JValue → String
  | [] => ""
  | [x] => jsonStringify x
  | x :: y :: xs => jsonStringify x ++ "," ++ jsonStringifyList (y :: xs)

def jsonStringifyFields : List (String × JValue) → String
  | [] => ""
  | [(k, v)] => "\"" ++ escapeJson k ++ "\":" ++ jsonStringify v
  | (k, v) :: f :: fs =>
    "\"" ++ escapeJson k ++ "\":" ++ jsonStringify v ++ "," ++ jsonStringifyFields (f :: fs)
end

set_option linter.unusedVariables false in
/-- `extractItems(category_id, payload)` (lines 101-107): the non-empty
`results` array field if present, else the payload itself when it is a
non-empty array, else `[]`. `category_id` is accepted and unused, as in
the source. -/
def extractItems (category_id : String) (payload : JValue) : List JValue :=
  match (jsGetField payload "results").bind asArray with
  | some rs =>
    if rs.length > 0 then rs
    else match asArray payload with
      | some xs => if xs.length > 0 then xs else []
      | none => []
  | none =>
    match asArray payload with
    | some xs => if xs.length > 0 then xs else []
    | none => []

/-- A normalized listing row destined for `meli_category_items`
(lines 211-225). `none` models SQL/JSON null in the nullable columns. -/
structure ItemRow where
  job_id : Int
  site_id : String
  category_id : String
  item_id : String
  title : Option JValue
  permalink : Option JValue
  price : Option JValue
  currency_id : Option JValue
  seller_id : Option JValue
  raw : JValue
deriving Repr

/-- JS optional chaining `seller?.id` applied to the (possibly absent)
`seller` field value. -/
def optChainSellerId (seller : Option JValue) : Option JValue :=
  match seller with
  | none => none
  | some .jnull => none
  | some v => jsGetField v "id"

/-- The row built for one extracted item (the `items.map` callback,
lines 211-225). A bare string item yields null descriptive fields;
otherwise fields are read from the item, with `seller_id` falling back
from `it.seller?.id` to `it.seller_id`. -/
def normalizeItem (jobId : Int) (siteId categoryId : String) (it : JValue) : ItemRow :=
  let isStringId : Bool := match it with | .jstr _ => true | _ => false
  { job_id := jobId
    site_id := siteId
    category_id := categoryId
    item_id := if isStringId then jsToString it else jsToStringU (jsGetField it "id")
    title := if isStringId then none else jsCoalesce (jsGetField it "title")
    permalink := if isStringId then none else jsCoalesce (jsGetField it "permalink")
    price := if isStringId then none else jsCoalesce (jsGetField it "price")
    currency_id := if isStringId then none else jsCoalesce (jsGetField it "currency_id")
    seller_id := if isStringId then none else
      match jsCoalesce (optChainSellerId (jsGetField it "seller")) with
      | some v => some v
      | none => jsCoalesce (jsGetField it "seller_id")
    raw := it }

/-- `encodeURIComponent` leaves unreserved characters
(alphanumerics and `- _ . ! ~ * ' ( )`) unescaped. -/
def uriUnreserved (c : Char) : Bool :=
  c.isAlpha || c.isDigit ||
    c ∈ ['-', '_', '.', '!', Char.ofNat 126, '*', Char.ofNat 39, '(', ')']

def hexDigitUpper (n : Nat) : Char :=
  if n < 10 then Char.ofNat (48 + n) else Char.ofNat (55 + n)

/-- One percent-escaped UTF-8 byte, uppercase hex as in JS. -/
def pctByte (b : UInt8) : String :=
  String.mk ['%', hexDigitUpper (b.toNat / 16), hexDigitUpper (b.toNat % 16)]

/-- JS `encodeURIComponent`. -/
def encodeURIComponent (s : String) : String :=
  String.join (s.data.map fun c =>
    if uriUnreserved c then String.singleton c
    else String.join (((String.singleton c).toUTF8.toList).map pctByte))

/-- JS `String.prototype.startsWith`. -/
def jsStartsWith (s pat : String) : Bool :=
  pat.data.isPrefixOf s.data

/-- The whitespace characters JS `trim` strips (the ASCII ones). -/
def jsIsSpace (c : Char) : Bool :=
  c == ' ' || c == Char.ofNat 9 || c == Char.ofNat 10 || c == Char.ofNat 13 ||
    c == Char.ofNat 11 || c == Char.ofNat 12

/-- JS `String.prototype.trim`. -/
def jsTrim (s : String) : String :=
  String.mk ((s.data.dropWhile jsIsSpace).reverse.dropWhile jsIsSpace).reverse

/-- JS `String.prototype.toLowerCase` (ASCII range). -/
def jsToLowerCase (s : String) : String :=
  String.mk (s.data.map Char.toLower)

/-- JS `String.prototype.slice(n)`. -/
def jsSlice (n : Nat) (s : String) : String :=
  String.mk (s.data.drop n)

/-- JS `String.prototype.replace(pat, '')` with a string pattern removes
the first occurrence only. -/
def removeFirst (pat : String) : List Char → List Char
  | [] => []
  | c :: cs =>
    if pat.data.isPrefixOf (c :: cs) then (c :: cs).drop pat.length
    else c :: removeFirst pat cs

/-- One pending scan job as selected from `meli_scan_jobs`
(line 121-127); `attempts` is nullable in the row. -/
structure Job where
  id : Int
  site_id : String
  category_id : String
  status : String
  attempts : Option Int
deriving Repr

/-- `String(job.category_id).startsWith('SELLER:')` (line 175). -/
def isSellerJob (j : Job) : Bool :=
  jsStartsWith j.category_id "SELLER:"

/-- The seller items-search URL (lines 178-179). -/
def sellerUrl (category_id : String) (limit : Int) : String :=
  let sellerId := jsTrim (String.mk (removeFirst "SELLER:" category_id.data))
  "https://api.mercadolibre.com/users/" ++ encodeURIComponent sellerId ++
    "/items/search?limit=" ++ encodeURIComponent (toString limit)

/-- The category-search URL (line 181). -/
def categoryUrl (site_id category_id : String) (limit : Int) : String :=
  "https://api.mercadolibre.com/sites/" ++ encodeURIComponent site_id ++
    "/search?category=" ++ encodeURIComponent category_id ++
    "&limit=" ++ encodeURIComponent (toString limit)

/-- The URL built for a job (lines 176-182). -/
def jobUrl (site_id : String) (limit : Int) (j : Job) : String :=
  if isSellerJob j then sellerUrl j.category_id limit
  else categoryUrl site_id j.category_id limit

/-- An HTTP response from the marketplace or the OAuth endpoint:
status plus parsed JSON body (`none` when the body is not valid JSON, in
which case `res.json().catch(() => ({}))` yields `{}`). -/
structure MlResponse where
  status : Nat
  body : Option JValue

/-- `res.ok`: status in the 2xx range. -/
def statusOk (s : Nat) : Bool :=
  decide (200 ≤ s) && decide (s < 300)

/-- `await resMl.json().catch(() => ({}))` (line 192 and line 40). -/
def responsePayload (r : MlResponse) : JValue :=
  r.body.getD (.jobj [])

/-- Observable side effects of one invocation: database mutations,
database credential reads, and outbound HTTP calls.
`jobUpdate` records a `meli_scan_jobs` update (status, `last_error`,
and the attempts value when the update sets one); `listingUpsert` a
successful `meli_category_items` upsert; `tokenRead` the
`getLatestToken` select; `refreshCall` a POST to the OAuth endpoint with
the refresh token sent; `tokenWrite` a successful `meli_oauth_tokens`
upsert/update performed by `refreshToken`. -/
inductive Effect where
  | jobUpdate (id : Int) (status : String) (last_error : Option String) (attempts : Option Int)
  | listingUpsert (rows : List ItemRow)
  | tokenRead
  | refreshCall (refresh_token : String)
  | tokenWrite
  | fetchPublic (url : String)
  | fetchPrivate (url : String) (accessToken : String)

/-- One entry of the in-memory `results` array (lines 204, 241, 257-263). -/
inductive ResultEntry where
  | success (job_id : Int) (category : String) (items : Nat) (mode : String)
  | mlFailure (job_id : Int) (category : String) (status : Nat) (payload : JValue)
  | dbFailure (job_id : Int) (category : String) (db_error : String)
deriving Repr

/-- The latest `meli_oauth_tokens` row as read by `getLatestToken`.
Only the fields the worker uses are modelled; `access_token` and
`refresh_token` are nullable columns. -/
structure TokenRow where
  user_id : String
  access_token : Option String
  refresh_token : Option String

/-- Oracle for everything outside the worker: query results and the
responses of external HTTP endpoints. Functions take exactly the request
data the worker sends. -/
structure Env where
  /-- Result of the pending-jobs select (lines 121-127): Supabase error
  message or the selected batch. -/
  jobsResult : Except String (List Job)
  /-- Result of the `meli_oauth_tokens` select (lines 15-20): Supabase
  error, or no row (`none`), or the latest row. -/
  latestRow : Except String (Option TokenRow)
  /-- OAuth token-endpoint response, as a function of the refresh token
  sent (lines 30-40). -/
  oauthResp : String → MlResponse
  /-- Error of the credential upsert/update inside `refreshToken`
  (lines 53-75), `none` on success. -/
  tokenWriteErr : Option String
  /-- Response to `mlGetPublic(url)` (lines 80-88). -/
  publicResp : String → MlResponse
  /-- Response to `mlGetPrivate(url, accessToken)` (lines 90-99). -/
  privateResp : String → String → MlResponse
  /-- Error of the `meli_category_items` upsert (lines 227-229),
  `none` on success. -/
  upsertErr : List ItemRow → Option String

/-- JS falsy test for a nullable string column (`!data.access_token`):
true when the field is null or the empty string. -/
def strFalsy : Option String → Bool
  | none => true
  | some s => decide (s = "")

/-- `getLatestToken()` (lines 14-27): the latest credential row, or a
thrown error when the select fails, no row exists, or the row lacks a
(non-empty) access or refresh token. -/
def getLatestTokenRes (env : Env) : Except String TokenRow :=
  match env.latestRow with
  | .error e => .error e
  | .ok none =>
    .error "No token found in meli_oauth_tokens (missing access_token or refresh_token)"
  | .ok (some d) =>
    if strFalsy d.access_token || strFalsy d.refresh_token then
      .error "No token found in meli_oauth_tokens (missing access_token or refresh_token)"
    else .ok d

/-- `String(x)` on a nullable string column already known to be set. -/
def jsStringOfOptStr : Option String → String
  | none => "undefined"
  | some s => s

/-- The in-memory `accessToken` / `refreshTok` pair (lines 139-140),
mutated by a mid-batch refresh (lines 187-188). -/
structure TokState where
  accessToken : String
  refreshTok : String
deriving Repr

/-- `refreshToken(refresh_token)` (lines 29-78): POST to the OAuth
endpoint; non-2xx throws `Refresh token failed: ...`; on success the new
access token is `String(json.access_token)`, the new refresh token
defaults to the old one, and the pair is persisted (upsert by user_id
when the response carries one, else update by the old refresh token —
both recorded as one `tokenWrite`; a write error is thrown). The
returned `expires_at` is not modelled: it is wall-clock-derived and
unused by the caller. -/
def refreshTokenM (env : Env) (refresh_token : String) :
    List Effect × Except String (String × String) :=
  let res := env.oauthResp refresh_token
  let json := responsePayload res
  if ¬ statusOk res.status then
    ([.refreshCall refresh_token],
     .error ("Refresh token failed: " ++ toString res.status ++ " " ++ jsonStringify json))
  else
    let access_token := jsToStringU (jsGetField json "access_token")
    let new_refresh_token :=
      match jsCoalesce (jsGetField json "refresh_token") with
      | some v => jsToString v
      | none => refresh_token
    match env.tokenWriteErr with
    | some e => ([.refreshCall refresh_token], .error e)
    | none =>
      ([.refreshCall refresh_token, .tokenWrite], .ok (access_token, new_refresh_token))

/-- Outcome of processing one job: the effects performed, and either a
thrown error (aborting the invocation) or the updated token pair, the
result entry pushed, and the number of rows upserted. -/
structure JobOut where
  trace : List Effect
  outcome : Except String (TokState × ResultEntry × Nat)

/-- The `status: 'processing'` update of lines 165-173: bumps attempts
and clears `last_error`. -/
def markProcessingUpd (j : Job) : Effect :=
  .jobUpdate j.id "processing" none (some (j.attempts.getD 0 + 1))

/-- The `status: 'error'` update of lines 195-202, whose `last_error`
embeds the HTTP status and the stringified raw body. -/
def mlErrorUpd (j : Job) (r : MlResponse) : Effect :=
  .jobUpdate j.id "error"
    (some ("ML " ++ toString r.status ++ " " ++ jsonStringify (responsePayload r))) none

/-- Line 208: the items extracted from a job's final response. -/
def jobItems (j : Job) (r : MlResponse) : List JValue :=
  extractItems j.category_id (responsePayload r)

/-- Lines 211-225: the normalized rows of a job's final response. -/
def jobRows (site_id : String) (j : Job) (r : MlResponse) : List ItemRow :=
  (jobItems j r).map (normalizeItem j.id site_id j.category_id)

/-- Line 262: the mode reported in a success entry. -/
def jobMode (j : Job) : String :=
  if isSellerJob j then "seller" else "category_public"

/-- Lines 192-263: classify the final marketplace response `r`, extract
and normalize items, upsert, and finalize the job's status. `tr` is the
trace accumulated by the fetch phase. -/
def finishJob (env : Env) (site_id : String) (st : TokState) (j : Job)
    (tr : List Effect) (r : MlResponse) : JobOut :=
  if ¬ statusOk r.status then
    { trace := tr ++ [mlErrorUpd j r]
      outcome := .ok (st, .mlFailure j.id j.category_id r.status (responsePayload r), 0) }
  else
    let items := jobItems j r
    if items.length > 0 then
      let rows := jobRows site_id j r
      match env.upsertErr rows with
      | some msg =>
        { trace := tr ++ [.jobUpdate j.id "error" (some ("DB upsert error: " ++ msg)) none]
          outcome := .ok (st, .dbFailure j.id j.category_id msg, 0) }
      | none =>
        { trace := tr ++ [.listingUpsert rows, .jobUpdate j.id "done" none none]
          outcome := .ok (st, .success j.id j.category_id items.length (jobMode j), rows.length) }
    else
      { trace := tr ++ [.jobUpdate j.id "done" none none]
        outcome := .ok (st, .success j.id j.category_id items.length (jobMode j), 0) }

/-- The fetch phase of one job (lines 165-190): mark processing, fetch
the job URL publicly, and on a seller-mode 401 refresh the token pair
and retry the same URL privately once. Yields the response the rest of
the iteration classifies, with the token state it leaves behind. -/
def fetchPhase (env : Env) (site_id : String) (limit : Int) (st : TokState) (j : Job) :
    List Effect × Except String (TokState × MlResponse) :=
  let procUpd := markProcessingUpd j
  let url := jobUrl site_id limit j
  let r0 := env.publicResp url
  if isSellerJob j && r0.status == 401 then
    match refreshTokenM env st.refreshTok with
    | (rtr, .error e) =>
      (procUpd :: .fetchPublic url :: rtr, .error e)
    | (rtr, .ok (a2, r2)) =>
      (procUpd :: .fetchPublic url :: (rtr ++ [.fetchPrivate url a2]),
       .ok (⟨a2, r2⟩, env.privateResp url a2))
  else
    ([procUpd, .fetchPublic url], .ok (st, r0))

/-- One iteration of the job loop (lines 162-263): fetch phase, then
response classification and persistence. -/
def processJob (env : Env) (site_id : String) (limit : Int) (st : TokState) (j : Job) :
    JobOut :=
  match fetchPhase env site_id limit st j with
  | (tr, .error e) => { trace := tr, outcome := .error e }
  | (tr, .ok (st2, r)) => finishJob env site_id st2 j tr r

/-- Aggregate outcome of the `for (const job of jobs)` loop. -/
structure RunOut where
  trace : List Effect
  results : List ResultEntry
  processed : Nat
  inserted : Nat
  tokens : TokState
  aborted : Option String

/-- The job loop, abstracted over the body of one iteration:
sequential, threading the token pair; a thrown error aborts the
remaining jobs, keeping the effects performed so far. -/
def runJobsAux (step : TokState → Job → JobOut) : TokState → List Job → RunOut
  | st, [] =>
    { trace := [], results := [], processed := 0, inserted := 0, tokens := st, aborted := none }
  | st, j :: rest =>
    match step st j with
    | { trace := tr, outcome := .error e } =>
      { trace := tr, results := [], processed := 1, inserted := 0,
        tokens := st, aborted := some e }
    | { trace := tr, outcome := .ok (st2, entry, n) } =>
      let o := runJobsAux step st2 rest
      { trace := tr ++ o.trace, results := entry :: o.results,
        processed := 1 + o.processed, inserted := n + o.inserted,
        tokens := o.tokens, aborted := o.aborted }

/-- The `for (const job of jobs)` loop (lines 162-264), its body being
`processJob`. -/
def runJobs (env : Env) (site_id : String) (limit : Int) (st : TokState)
    (jobs : List Job) : RunOut :=
  runJobsAux (fun st j => processJob env site_id limit st j) st jobs

/-- The request body fields the worker reads (line 115-118);
`none` models an absent (or null) field. -/
structure ReqBody where
  site_id : Option String
  country : Option String
  batch : Option Int
  limit : Option Int

/-- The incoming request: method, optional JSON body, and the
`authorization` header when present. -/
structure Request where
  method : String
  body : Option ReqBody
  authHeader : Option String

/-- Line 116: `String(body.site_id ?? (body.country === 'CL' ? 'MLC' : 'MLC'))`. -/
def resolveSiteId (site_id country : Option String) : String :=
  match site_id with
  | some s => s
  | none => if country = some "CL" then "MLC" else "MLC"

/-- The JSON response the handler sends. -/
inductive HandlerResult where
  /-- 405 `{ok:false, error:'Method not allowed'}` (line 111). -/
  | methodNotAllowed
  /-- 500 `{ok:false, error}` from a failed jobs select (line 130). -/
  | queryFailure (error : String)
  /-- `{ok:true, msg:'no_jobs', site_id, batch, limit}` (line 134). -/
  | noJobs (site_id : String) (batch limit : Int)
  /-- `{ok:true, site_id, processed, inserted, token_source, token_len, results}`
  (lines 266-274). -/
  | success (site_id : String) (processed inserted : Nat) (token_source : String)
      (token_len : Nat) (results : List ResultEntry)
  /-- 500 `{ok:false, error}` from the catch block (line 276). -/
  | failure (error : String)
deriving Repr

/-- Lines 146-148: strip a leading (case-insensitive) `Bearer ` from the
header value. -/
def parseBearer (incomingBearer : String) : String :=
  if jsStartsWith (jsToLowerCase incomingBearer) "bearer " then jsTrim (jsSlice 7 incomingBearer)
  else incomingBearer

/-- `req.body || {}` (line 115). -/
def reqBodyOf (req : Request) : ReqBody :=
  req.body.getD ⟨none, none, none, none⟩

/-- The resolved site id of an invocation (line 116). -/
def reqSiteId (req : Request) : String :=
  resolveSiteId (reqBodyOf req).site_id (reqBodyOf req).country

/-- `Number(body.batch ?? 5)` (line 117). -/
def reqBatch (req : Request) : Int :=
  (reqBodyOf req).batch.getD 5

/-- `Number(body.limit ?? 50)` (line 118). -/
def reqLimit (req : Request) : Int :=
  (reqBodyOf req).limit.getD 50

/-- `(incomingAuth || '').trim()` (lines 142-143). -/
def reqBearer (req : Request) : String :=
  jsTrim (req.authHeader.getD "")

/-- The initial in-memory token pair (lines 138-156): access token from
the header when one is supplied, else from the stored row; refresh token
always from the stored row. -/
def initTokState (req : Request) (tok : TokenRow) : TokState :=
  { accessToken :=
      if reqBearer req ≠ "" then parseBearer (reqBearer req)
      else jsStringOfOptStr tok.access_token
    refreshTok := jsStringOfOptStr tok.refresh_token }

/-- `token_source` as reported in the summary (lines 138, 145, 153). -/
def reqTokenSource (req : Request) : String :=
  if reqBearer req ≠ "" then "header" else "db"

/-- The exported handler (lines 109-278), as a function from the request
and the external-world oracle to the response and the effect trace. -/
def scanWorker (req : Request) (env : Env) : HandlerResult × List Effect :=
  if req.method ≠ "POST" then (.methodNotAllowed, [])
  else
    match env.jobsResult with
    | .error e => (.queryFailure e, [])
    | .ok jobs =>
      if jobs.length = 0 then (.noJobs (reqSiteId req) (reqBatch req) (reqLimit req), [])
      else
        match getLatestTokenRes env with
        | .error e => (.failure e, [.tokenRead])
        | .ok tok =>
          let out := runJobs env (reqSiteId req) (reqLimit req) (initTokState req tok) jobs
          match out.aborted with
          | some e => (.failure e, .tokenRead :: out.trace)
          | none =>
            (.success (reqSiteId req) out.processed out.inserted (reqTokenSource req)
              out.tokens.accessToken.length out.results,
             .tokenRead :: out.trace)

/-! ### Trace observations -/

/-- Is this effect a call to the OAuth refresh endpoint? -/
def isRefreshCall : Effect → Bool
  | .refreshCall _ => true
  | _ => false

/-- Is this effect an authenticated marketplace fetch? -/
def isPrivateFetch : Effect → Bool
  | .fetchPrivate _ _ => true
  | _ => false

/-- Is this effect a database mutation (job update, listing upsert, or
credential write)? Reads and outbound HTTP calls are not mutations. -/
def isMutation : Effect → Bool
  | .jobUpdate _ _ _ _ => true
  | .listingUpsert _ => true
  | .tokenWrite => true
  | _ => false

def countRefresh (tr : List Effect) : Nat := (tr.filter isRefreshCall).length

def countPrivateFetch (tr : List Effect) : Nat := (tr.filter isPrivateFetch).length

def countTokenWrite (tr : List Effect) : Nat :=
  (tr.filter fun e => match e with | .tokenWrite => true | _ => false).length

/-- The refresh tokens sent to the OAuth endpoint, in call order. -/
def refreshArgs (tr : List Effect) : List String :=
  tr.filterMap fun e => match e with | .refreshCall t => some t | _ => none

/-- The sequence of statuses written to job `id` by the trace. -/
def statusesFor (id : Int) (tr : List Effect) : List String :=
  tr.filterMap fun e =>
    match e with
    | .jobUpdate i s _ _ => if i = id then some s else none
    | _ => none

theorem countRefresh_append (a b : List Effect) :
    countRefresh (a ++ b) = countRefresh a + countRefresh b := by
  simp [countRefresh, List.filter_append]

theorem countPrivateFetch_append (a b : List Effect) :
    countPrivateFetch (a ++ b) = countPrivateFetch a + countPrivateFetch b := by
  simp [countPrivateFetch, List.filter_append]

theorem statusesFor_append (id : Int) (a b : List Effect) :
    statusesFor id (a ++ b) = statusesFor id a ++ statusesFor id b := by
  simp [statusesFor, List.filterMap_append]

/-- `finishJob` only appends job updates and upserts: it performs no
refresh call and no private fetch beyond the incoming trace. -/
theorem finishJob_counts (env : Env) (site_id : String) (st : TokState) (j : Job)
    (tr : List Effect) (r : MlResponse) :
    countRefresh (finishJob env site_id st j tr r).trace = countRefresh tr ∧
    countPrivateFetch (finishJob env site_id st j tr r).trace = countPrivateFetch tr := by
  unfold finishJob
  dsimp only
  repeat' split
  all_goals
    simp [countRefresh, countPrivateFetch, List.filter_append, isRefreshCall, isPrivateFetch,
      mlErrorUpd]

/-! ### Inversion and unfolding lemmas for the per-job pipeline -/

/-- The access token a successful refresh of `t` yields. -/
def newAccessToken (env : Env) (t : String) : String :=
  jsToStringU (jsGetField (responsePayload (env.oauthResp t)) "access_token")

/-- The refresh token a successful refresh of `t` yields (the response
field when present, else `t` unchanged). -/
def newRefreshToken (env : Env) (t : String) : String :=
  match jsCoalesce (jsGetField (responsePayload (env.oauthResp t)) "refresh_token") with
  | some v => jsToString v
  | none => t

theorem refreshTokenM_ok_of (env : Env) (t : String)
    (h1 : statusOk (env.oauthResp t).status = true) (h2 : env.tokenWriteErr = none) :
    refreshTokenM env t =
      ([.refreshCall t, .tokenWrite], .ok (newAccessToken env t, newRefreshToken env t)) := by
  simp [refreshTokenM, h1, h2, newAccessToken, newRefreshToken]

theorem refreshTokenM_ok_inv (env : Env) (t : String) (tr : List Effect)
    (a r : String) (h : refreshTokenM env t = (tr, .ok (a, r))) :
    tr = [.refreshCall t, .tokenWrite] := by
  simp only [refreshTokenM] at h
  split at h <;> (try split at h) <;> simp_all

theorem refreshTokenM_err_inv (env : Env) (t : String) (tr : List Effect)
    (e : String) (h : refreshTokenM env t = (tr, .error e)) :
    tr = [.refreshCall t] := by
  simp only [refreshTokenM] at h
  split at h <;> (try split at h) <;> simp_all

/-- Category mode: the fetch phase is a single anonymous public fetch,
whatever the response; the token state is untouched. -/
theorem fetchPhase_category (env : Env) (site_id : String) (limit : Int)
    (st : TokState) (j : Job) (h : isSellerJob j = false) :
    fetchPhase env site_id limit st j =
      ([markProcessingUpd j, .fetchPublic (jobUrl site_id limit j)],
       .ok (st, env.publicResp (jobUrl site_id limit j))) := by
  simp [fetchPhase, h]

/-- Seller mode without a 401: also a single public fetch. -/
theorem fetchPhase_seller_no401 (env : Env) (site_id : String) (limit : Int)
    (st : TokState) (j : Job)
    (h : (env.publicResp (jobUrl site_id limit j)).status ≠ 401) :
    fetchPhase env site_id limit st j =
      ([markProcessingUpd j, .fetchPublic (jobUrl site_id limit j)],
       .ok (st, env.publicResp (jobUrl site_id limit j))) := by
  have : ((env.publicResp (jobUrl site_id limit j)).status == 401) = false := by
    simpa using h
  simp [fetchPhase, this]

/-- Seller mode with a 401 and a successful refresh: one refresh call,
one token write, one private retry of the same URL with the new access
token; the token pair is replaced. -/
theorem fetchPhase_seller401 (env : Env) (site_id : String) (limit : Int)
    (st : TokState) (j : Job) (rtr : List Effect) (a2 r2 : String)
    (hs : isSellerJob j = true)
    (h401 : (env.publicResp (jobUrl site_id limit j)).status = 401)
    (hre : refreshTokenM env st.refreshTok = (rtr, .ok (a2, r2))) :
    fetchPhase env site_id limit st j =
      (markProcessingUpd j :: .fetchPublic (jobUrl site_id limit j) ::
         (rtr ++ [.fetchPrivate (jobUrl site_id limit j) a2]),
       .ok (⟨a2, r2⟩, env.privateResp (jobUrl site_id limit j) a2)) := by
  simp [fetchPhase, hs, h401, hre]

/-- Seller mode with a 401 and a failing refresh: the job (and the
invocation) aborts after the refresh call, with no private retry. -/
theorem fetchPhase_seller401_err (env : Env) (site_id : String) (limit : Int)
    (st : TokState) (j : Job) (rtr : List Effect) (e : String)
    (hs : isSellerJob j = true)
    (h401 : (env.publicResp (jobUrl site_id limit j)).status = 401)
    (hre : refreshTokenM env st.refreshTok = (rtr, .error e)) :
    fetchPhase env site_id limit st j =
      (markProcessingUpd j :: .fetchPublic (jobUrl site_id limit j) :: rtr, .error e) := by
  simp [fetchPhase, hs, h401, hre]

/-- Non-2xx final response: the job is marked `error` with a message
embedding the status and raw body, a marketplace-failure entry is
produced, and nothing is upserted. -/
theorem finishJob_mlError (env : Env) (site_id : String) (st : TokState) (j : Job)
    (tr : List Effect) (r : MlResponse) (h : statusOk r.status = false) :
    finishJob env site_id st j tr r =
      { trace := tr ++ [mlErrorUpd j r]
        outcome := .ok (st, .mlFailure j.id j.category_id r.status (responsePayload r), 0) } := by
  simp [finishJob, h]

/-- 2xx response, items extracted, upsert fails: the job is marked
`error` with the storage error embedded, a db-failure entry is produced,
nothing counts as inserted. -/
theorem finishJob_dbError (env : Env) (site_id : String) (st : TokState) (j : Job)
    (tr : List Effect) (r : MlResponse) (msg : String)
    (hok : statusOk r.status = true) (hlen : (jobItems j r).length > 0)
    (hup : env.upsertErr (jobRows site_id j r) = some msg) :
    finishJob env site_id st j tr r =
      { trace := tr ++ [.jobUpdate j.id "error" (some ("DB upsert error: " ++ msg)) none]
        outcome := .ok (st, .dbFailure j.id j.category_id msg, 0) } := by
  simp [finishJob, hok, hlen, hup]

/-- 2xx response, items extracted, upsert succeeds: rows are upserted
in one batch, the job is marked `done`, a success entry reports the item
count and mode. -/
theorem finishJob_done (env : Env) (site_id : String) (st : TokState) (j : Job)
    (tr : List Effect) (r : MlResponse)
    (hok : statusOk r.status = true) (hlen : (jobItems j r).length > 0)
    (hup : env.upsertErr (jobRows site_id j r) = none) :
    finishJob env site_id st j tr r =
      { trace := tr ++ [.listingUpsert (jobRows site_id j r),
          .jobUpdate j.id "done" none none]
        outcome := .ok (st, .success j.id j.category_id (jobItems j r).length (jobMode j),
          (jobRows site_id j r).length) } := by
  simp [finishJob, hok, hlen, hup]

/-- 2xx response with no extracted items: no upsert at all; the job is
still marked `done`. -/
theorem finishJob_done_empty (env : Env) (site_id : String) (st : TokState) (j : Job)
    (tr : List Effect) (r : MlResponse)
    (hok : statusOk r.status = true) (hlen : ¬ (jobItems j r).length > 0) :
    finishJob env site_id st j tr r =
      { trace := tr ++ [.jobUpdate j.id "done" none none]
        outcome := .ok (st, .success j.id j.category_id (jobItems j r).length (jobMode j), 0) } := by
  simp [finishJob, hok, hlen]

theorem processJob_of_fetchPhase_ok (env : Env) (site_id : String) (limit : Int)
    (st st2 : TokState) (j : Job) (tr : List Effect) (r : MlResponse)
    (h : fetchPhase env site_id limit st j = (tr, .ok (st2, r))) :
    processJob env site_id limit st j = finishJob env site_id st2 j tr r := by
  unfold processJob
  rw [h]

theorem processJob_of_fetchPhase_err (env : Env) (site_id : String) (limit : Int)
    (st : TokState) (j : Job) (tr : List Effect) (e : String)
    (h : fetchPhase env site_id limit st j = (tr, .error e)) :
    processJob env site_id limit st j = { trace := tr, outcome := .error e } := by
  unfold processJob
  rw [h]

theorem runJobsAux_cons_ok (step : TokState → Job → JobOut)
    (st st2 : TokState) (j : Job) (rest : List Job) (tr : List Effect)
    (e : ResultEntry) (n : Nat)
    (h : step st j = ⟨tr, .ok (st2, e, n)⟩) :
    runJobsAux step st (j :: rest) =
      { trace := tr ++ (runJobsAux step st2 rest).trace
        results := e :: (runJobsAux step st2 rest).results
        processed := 1 + (runJobsAux step st2 rest).processed
        inserted := n + (runJobsAux step st2 rest).inserted
        tokens := (runJobsAux step st2 rest).tokens
        aborted := (runJobsAux step st2 rest).aborted } := by
  simp only [runJobsAux, h]

theorem runJobsAux_cons_err (step : TokState → Job → JobOut)
    (st : TokState) (j : Job) (rest : List Job) (tr : List Effect) (e : String)
    (h : step st j = ⟨tr, .error e⟩) :
    runJobsAux step st (j :: rest) =
      { trace := tr, results := [], processed := 1, inserted := 0,
        tokens := st, aborted := some e } := by
  simp only [runJobsAux, h]

theorem runJobs_cons_ok (env : Env) (site_id : String) (limit : Int)
    (st st2 : TokState) (j : Job) (rest : List Job) (tr : List Effect)
    (e : ResultEntry) (n : Nat)
    (h : processJob env site_id limit st j = ⟨tr, .ok (st2, e, n)⟩) :
    runJobs env site_id limit st (j :: rest) =
      { trace := tr ++ (runJobs env site_id limit st2 rest).trace
        results := e :: (runJobs env site_id limit st2 rest).results
        processed := 1 + (runJobs env site_id limit st2 rest).processed
        inserted := n + (runJobs env site_id limit st2 rest).inserted
        tokens := (runJobs env site_id limit st2 rest).tokens
        aborted := (runJobs env site_id limit st2 rest).aborted } := by
  unfold runJobs
  exact runJobsAux_cons_ok _ st st2 j rest tr e n h

theorem runJobs_cons_err (env : Env) (site_id : String) (limit : Int)
    (st : TokState) (j : Job) (rest : List Job) (tr : List Effect) (e : String)
    (h : processJob env site_id limit st j = ⟨tr, .error e⟩) :
    runJobs env site_id limit st (j :: rest) =
      { trace := tr, results := [], processed := 1, inserted := 0,
        tokens := st, aborted := some e } := by
  unfold runJobs
  exact runJobsAux_cons_err _ st j rest tr e h

theorem runJobs_nil (env : Env) (site_id : String) (limit : Int) (st : TokState) :
    runJobs env site_id limit st [] =
      { trace := [], results := [], processed := 0, inserted := 0,
        tokens := st, aborted := none } := rfl

/-! ### Job-status writes per trace, for the abort-isolation claim -/

theorem statusesFor_refreshTokenM (id : Int) (env : Env) (t : String) :
    statusesFor id (refreshTokenM env t).1 = [] := by
  simp only [refreshTokenM]
  split <;> (try split) <;> simp [statusesFor]

theorem statusesFor_fetchPhase (id : Int) (env : Env) (site_id : String) (limit : Int)
    (st : TokState) (j : Job) :
    statusesFor id (fetchPhase env site_id limit st j).1 =
      if j.id = id then ["processing"] else [] := by
  have hr := statusesFor_refreshTokenM id env st.refreshTok
  simp only [statusesFor] at hr ⊢
  simp only [fetchPhase]
  split
  · rcases hre : refreshTokenM env st.refreshTok with ⟨rtr, out⟩
    rw [hre] at hr
    cases out <;>
      by_cases hid : j.id = id <;>
        simp [hid, markProcessingUpd, List.filterMap_append, hr]
  · by_cases hid : j.id = id <;> simp [hid, markProcessingUpd]

theorem statusesFor_finishJob (id : Int) (env : Env) (site_id : String) (st : TokState)
    (j : Job) (tr : List Effect) (r : MlResponse) :
    ∃ s2, (s2 = "done" ∨ s2 = "error") ∧
      statusesFor id (finishJob env site_id st j tr r).trace =
        statusesFor id tr ++ (if j.id = id then [s2] else []) := by
  by_cases hok : statusOk r.status
  · by_cases hlen : (jobItems j r).length > 0
    · cases hup : env.upsertErr (jobRows site_id j r) with
      | none =>
        rw [finishJob_done env site_id st j tr r hok hlen hup]
        exact ⟨"done", .inl rfl, by
          by_cases hid : j.id = id <;> simp [hid, statusesFor, List.filterMap_append]⟩
      | some msg =>
        rw [finishJob_dbError env site_id st j tr r msg hok hlen hup]
        exact ⟨"error", .inr rfl, by
          by_cases hid : j.id = id <;> simp [hid, statusesFor, List.filterMap_append]⟩
    · rw [finishJob_done_empty env site_id st j tr r hok hlen]
      exact ⟨"done", .inl rfl, by
        by_cases hid : j.id = id <;> simp [hid, statusesFor, List.filterMap_append]⟩
  · rw [finishJob_mlError env site_id st j tr r (by simpa using hok)]
    exact ⟨"error", .inr rfl, by
      by_cases hid : j.id = id <;>
        simp [hid, statusesFor, List.filterMap_append, mlErrorUpd]⟩

/-- `finishJob` never throws: every branch finalizes the job and
produces a result entry. -/
theorem finishJob_ok_exists (env : Env) (site_id : String) (st : TokState) (j : Job)
    (tr : List Effect) (r : MlResponse) :
    ∃ p, (finishJob env site_id st j tr r).outcome = .ok p := by
  unfold finishJob
  dsimp only
  repeat' split
  all_goals exact ⟨_, rfl⟩

/-- When the seller-401 condition of line 185 is false, the fetch phase
is the single public fetch. -/
theorem fetchPhase_noTrigger (env : Env) (site_id : String) (limit : Int)
    (st : TokState) (j : Job)
    (h : (isSellerJob j && ((env.publicResp (jobUrl site_id limit j)).status == 401)) = false) :
    fetchPhase env site_id limit st j =
      ([markProcessingUpd j, .fetchPublic (jobUrl site_id limit j)],
       .ok (st, env.publicResp (jobUrl site_id limit j))) := by
  simp only [fetchPhase]
  rw [h]
  simp

theorem statusesFor_processJob_ne (id : Int) (env : Env) (site_id : String)
    (limit : Int) (st : TokState) (j : Job) (hid : j.id ≠ id) :
    statusesFor id (processJob env site_id limit st j).trace = [] := by
  rcases hfp : fetchPhase env site_id limit st j with ⟨tr, out⟩
  have htr : statusesFor id tr = [] := by
    have h := statusesFor_fetchPhase id env site_id limit st j
    rw [hfp] at h
    simpa [hid] using h
  cases out with
  | error e =>
    rw [processJob_of_fetchPhase_err env site_id limit st j tr e hfp]
    exact htr
  | ok p =>
    rcases p with ⟨st2, r⟩
    rw [processJob_of_fetchPhase_ok env site_id limit st st2 j tr r hfp]
    obtain ⟨s2, _, heq⟩ := statusesFor_finishJob id env site_id st2 j tr r
    rw [heq, htr]
    simp [hid]

theorem statusesFor_processJob_self (env : Env) (site_id : String)
    (limit : Int) (st : TokState) (j : Job) :
    statusesFor j.id (processJob env site_id limit st j).trace = ["processing"] ∨
    statusesFor j.id (processJob env site_id limit st j).trace = ["processing", "done"] ∨
    statusesFor j.id (processJob env site_id limit st j).trace = ["processing", "error"] := by
  rcases hfp : fetchPhase env site_id limit st j with ⟨tr, out⟩
  have htr : statusesFor j.id tr = ["processing"] := by
    have h := statusesFor_fetchPhase j.id env site_id limit st j
    rw [hfp] at h
    simpa using h
  cases out with
  | error e =>
    rw [processJob_of_fetchPhase_err env site_id limit st j tr e hfp]
    exact .inl htr
  | ok p =>
    rcases p with ⟨st2, r⟩
    rw [processJob_of_fetchPhase_ok env site_id limit st st2 j tr r hfp]
    obtain ⟨s2, hs2, heq⟩ := statusesFor_finishJob j.id env site_id st2 j tr r
    rw [heq, htr]
    rcases hs2 with h | h
    · subst h; right; left; simp
    · subst h; right; right; simp

theorem statusesFor_runJobs_notMem (id : Int) (env : Env) (site_id : String)
    (limit : Int) :
    ∀ (jobs : List Job) (st : TokState), id ∉ jobs.map Job.id →
      statusesFor id (runJobs env site_id limit st jobs).trace = [] := by
  intro jobs
  induction jobs with
  | nil => intro st _; simp [runJobs_nil, statusesFor]
  | cons j rest ih =>
    intro st hmem
    rw [List.map_cons, List.mem_cons] at hmem
    push_neg at hmem
    obtain ⟨hj, hrest⟩ := hmem
    rcases hpj : processJob env site_id limit st j with ⟨tr, out⟩
    have htr : statusesFor id tr = [] := by
      have h := statusesFor_processJob_ne id env site_id limit st j (fun hc => hj hc.symm)
      rw [hpj] at h
      exact h
    cases out with
    | error e =>
      rw [runJobs_cons_err env site_id limit st j rest tr e hpj]
      exact htr
    | ok p =>
      rcases p with ⟨st2, entry, n⟩
      rw [runJobs_cons_ok env site_id limit st st2 j rest tr entry n hpj]
      dsimp only
      rw [statusesFor_append, htr, ih st2 hrest]
      rfl

theorem statusesFor_runJobs (id : Int) (env : Env) (site_id : String) (limit : Int) :
    ∀ (jobs : List Job) (st : TokState), (jobs.map Job.id).Nodup →
      (statusesFor id (runJobs env site_id limit st jobs).trace = [] ∨
       statusesFor id (runJobs env site_id limit st jobs).trace = ["processing"] ∨
       statusesFor id (runJobs env site_id limit st jobs).trace = ["processing", "done"] ∨
       statusesFor id (runJobs env site_id limit st jobs).trace = ["processing", "error"]) := by
  intro jobs
  induction jobs with
  | nil => intro st _; left; simp [runJobs_nil, statusesFor]
  | cons j rest ih =>
    intro st hnd
    rw [List.map_cons, List.nodup_cons] at hnd
    obtain ⟨hj, hrest⟩ := hnd
    rcases hpj : processJob env site_id limit st j with ⟨tr, out⟩
    by_cases hid : j.id = id
    · subst hid
      have hopts := statusesFor_processJob_self env site_id limit st j
      rw [hpj] at hopts
      cases out with
      | error e =>
        rw [runJobs_cons_err env site_id limit st j rest tr e hpj]
        exact .inr hopts
      | ok p =>
        rcases p with ⟨st2, entry, n⟩
        rw [runJobs_cons_ok env site_id limit st st2 j rest tr entry n hpj]
        dsimp only
        rw [statusesFor_append, statusesFor_runJobs_notMem j.id env site_id limit rest st2 hj,
          List.append_nil]
        exact .inr hopts
    · have htr : statusesFor id tr = [] := by
        have h := statusesFor_processJob_ne id env site_id limit st j hid
        rw [hpj] at h
        exact h
      cases out with
      | error e =>
        rw [runJobs_cons_err env site_id limit st j rest tr e hpj]
        exact .inl htr
      | ok p =>
        rcases p with ⟨st2, entry, n⟩
        rw [runJobs_cons_ok env site_id limit st st2 j rest tr entry n hpj]
        dsimp only
        rw [statusesFor_append, htr, List.nil_append]
        exact ih st2 hrest

/-! ### Refresh counting -/

/-- Under an always-successful refresh oracle, one loop iteration
performs exactly one refresh call when the job is seller-mode and its
public fetch returned 401, and none otherwise; the iteration never
throws. Same for private fetches. -/
theorem processJob_counts (env : Env) (site_id : String) (limit : Int)
    (st : TokState) (j : Job)
    (hrs : ∀ t, statusOk (env.oauthResp t).status = true)
    (hwr : env.tokenWriteErr = none) :
    countRefresh (processJob env site_id limit st j).trace =
      (if isSellerJob j && ((env.publicResp (jobUrl site_id limit j)).status == 401)
        then 1 else 0) ∧
    countPrivateFetch (processJob env site_id limit st j).trace =
      (if isSellerJob j && ((env.publicResp (jobUrl site_id limit j)).status == 401)
        then 1 else 0) ∧
    ∃ p, (processJob env site_id limit st j).outcome = .ok p := by
  by_cases htr : (isSellerJob j &&
      ((env.publicResp (jobUrl site_id limit j)).status == 401)) = true
  · obtain ⟨hs, h401⟩ := Bool.and_eq_true_iff.mp htr
    have h401n : (env.publicResp (jobUrl site_id limit j)).status = 401 :=
      eq_of_beq h401
    have hre := refreshTokenM_ok_of env st.refreshTok (hrs st.refreshTok) hwr
    have hfp := fetchPhase_seller401 env site_id limit st j _ _ _ hs h401n hre
    rw [processJob_of_fetchPhase_ok env site_id limit st _ j _ _ hfp, htr]
    refine ⟨?_, ?_, finishJob_ok_exists env site_id _ j _ _⟩
    · rw [(finishJob_counts env site_id _ j _ _).1]
      simp [countRefresh, isRefreshCall, markProcessingUpd]
    · rw [(finishJob_counts env site_id _ j _ _).2]
      simp [countPrivateFetch, isPrivateFetch, markProcessingUpd]
  · have htr' := Bool.not_eq_true _ ▸ htr
    have hfp := fetchPhase_noTrigger env site_id limit st j (Bool.eq_false_iff.mpr htr)
    rw [processJob_of_fetchPhase_ok env site_id limit st st j _ _ hfp,
      Bool.eq_false_iff.mpr htr]
    refine ⟨?_, ?_, finishJob_ok_exists env site_id st j _ _⟩
    · rw [(finishJob_counts env site_id st j _ _).1]
      simp [countRefresh, isRefreshCall, markProcessingUpd]
    · rw [(finishJob_counts env site_id st j _ _).2]
      simp [countPrivateFetch, isPrivateFetch, markProcessingUpd]

/-- Under an always-successful refresh oracle, the loop never aborts and
the number of refresh calls equals the number of seller-mode jobs whose
public fetch returned 401. -/
theorem countRefresh_runJobs (env : Env) (site_id : String) (limit : Int)
    (hrs : ∀ t, statusOk (env.oauthResp t).status = true)
    (hwr : env.tokenWriteErr = none) :
    ∀ (jobs : List Job) (st : TokState),
      countRefresh (runJobs env site_id limit st jobs).trace =
        (jobs.filter fun j =>
          isSellerJob j && ((env.publicResp (jobUrl site_id limit j)).status == 401)).length ∧
      (runJobs env site_id limit st jobs).aborted = none := by
  intro jobs
  induction jobs with
  | nil => intro st; exact ⟨by simp [runJobs_nil, countRefresh], by simp [runJobs_nil]⟩
  | cons j rest ih =>
    intro st
    obtain ⟨hcr, _, p, hout⟩ := processJob_counts env site_id limit st j hrs hwr
    rcases hpj : processJob env site_id limit st j with ⟨tr, out⟩
    rw [hpj] at hout hcr
    dsimp only at hout hcr
    subst hout
    rcases p with ⟨st2, entry, n⟩
    rw [runJobs_cons_ok env site_id limit st st2 j rest tr entry n hpj]
    dsimp only
    refine ⟨?_, (ih st2).2⟩
    rw [countRefresh_append, hcr, (ih st2).1, List.filter_cons]
    by_cases hb : (isSellerJob j &&
        ((env.publicResp (jobUrl site_id limit j)).status == 401)) = true
    · simp [hb, Nat.add_comm]
    · simp [Bool.eq_false_iff.mpr hb]

/-- `finishJob` adds no refresh call: the refresh tokens sent are those
of the incoming trace. -/
theorem finishJob_refreshArgs (env : Env) (site_id : String) (st : TokState)
    (j : Job) (tr : List Effect) (r : MlResponse) :
    refreshArgs (finishJob env site_id st j tr r).trace = refreshArgs tr := by
  unfold finishJob
  dsimp only
  repeat' split
  all_goals simp [refreshArgs, List.filterMap_append, mlErrorUpd]

/-- Under an always-successful refresh oracle, the refresh call a job
performs (when it performs one) sends exactly the refresh token held
when that job started. -/
theorem refreshArgs_processJob (env : Env) (site_id : String) (limit : Int)
    (st : TokState) (j : Job)
    (hrs : ∀ t, statusOk (env.oauthResp t).status = true)
    (hwr : env.tokenWriteErr = none) :
    refreshArgs (processJob env site_id limit st j).trace =
      (if isSellerJob j && ((env.publicResp (jobUrl site_id limit j)).status == 401)
        then [st.refreshTok] else []) := by
  by_cases htr : (isSellerJob j &&
      ((env.publicResp (jobUrl site_id limit j)).status == 401)) = true
  · obtain ⟨hs, h401⟩ := Bool.and_eq_true_iff.mp htr
    have h401n : (env.publicResp (jobUrl site_id limit j)).status = 401 :=
      eq_of_beq h401
    have hre := refreshTokenM_ok_of env st.refreshTok (hrs st.refreshTok) hwr
    have hfp := fetchPhase_seller401 env site_id limit st j _ _ _ hs h401n hre
    rw [processJob_of_fetchPhase_ok env site_id limit st _ j _ _ hfp, htr,
      finishJob_refreshArgs env site_id _ j _ _]
    simp [refreshArgs, markProcessingUpd]
  · have hfp := fetchPhase_noTrigger env site_id limit st j (Bool.eq_false_iff.mpr htr)
    rw [processJob_of_fetchPhase_ok env site_id limit st st j _ _ hfp,
      Bool.eq_false_iff.mpr htr, finishJob_refreshArgs env site_id st j _ _]
    simp [refreshArgs, markProcessingUpd]

/-! ### Claims -/

/-- Modelled from the spec's own wording of item extraction ("if payload
has a non-empty list field named results, return it; else if payload
itself is a non-empty list, return it; else return empty"), to be
compared with the source's `extractItems`. -/
def extractItemsSpec (payload : JValue) : List JValue :=
  match jsGetField payload "results" with
  | some (.jarr (r :: rs)) => r :: rs
  | _ =>
    match payload with
    | .jarr (x :: xs) => x :: xs
    | _ => []

/-- Claim C4: `extractItems` returns the payload's non-empty `results`
list, else the payload itself when it is a non-empty list, else `[]`;
in particular `[]` for `\x7b\x7d`, `\x7bresults: []\x7d` and `[]`, and
the list unchanged for `\x7bresults:[\x7bid:1\x7d]\x7d` and
`["MLA1","MLA2"]`. -/
theorem claim_C4 :
    (∀ category_id payload,
      extractItems category_id payload = extractItemsSpec payload) ∧
    (∀ category_id,
      extractItems category_id (.jobj []) = [] ∧
      extractItems category_id (.jobj [("results", .jarr [])]) = [] ∧
      extractItems category_id (.jarr []) = [] ∧
      extractItems category_id (.jobj [("results", .jarr [.jobj [("id", .jnum 1)]])]) =
        [.jobj [("id", .jnum 1)]] ∧
      extractItems category_id (.jarr [.jstr "MLA1", .jstr "MLA2"]) =
        [.jstr "MLA1", .jstr "MLA2"]) := by
  constructor
  · intro cid payload
    rcases payload with _ | b | n | s | xs | fs
    · rfl
    · rfl
    · rfl
    · rfl
    · cases xs <;> simp [extractItems, extractItemsSpec, jsGetField, asArray]
    · rcases hres : fs.lookup "results" with _ | v
      · simp [extractItems, extractItemsSpec, jsGetField, asArray, hres]
      · rcases v with _ | b | n | s | xs | fs2
        · simp [extractItems, extractItemsSpec, jsGetField, asArray, hres]
        · simp [extractItems, extractItemsSpec, jsGetField, asArray, hres]
        · simp [extractItems, extractItemsSpec, jsGetField, asArray, hres]
        · simp [extractItems, extractItemsSpec, jsGetField, asArray, hres]
        · cases xs <;> simp [extractItems, extractItemsSpec, jsGetField, asArray, hres]
        · simp [extractItems, extractItemsSpec, jsGetField, asArray, hres]
  · intro cid
    refine ⟨rfl, rfl, rfl, rfl, rfl⟩

/-- Claim C5: normalization maps a bare string item to a row whose
`item_id` is the string with all descriptive fields null; a structured
item's fields are read from the like-named fields with `seller_id`
falling back from `seller.id` to `seller_id`, and the original item is
kept verbatim in `raw`. -/
theorem claim_C5 :
    ∀ jid sid cid,
      (∀ s, normalizeItem jid sid cid (.jstr s) =
        { job_id := jid, site_id := sid, category_id := cid, item_id := s,
          title := none, permalink := none, price := none, currency_id := none,
          seller_id := none, raw := .jstr s }) ∧
      (∀ it, (normalizeItem jid sid cid it).raw = it) ∧
      (∀ fs, normalizeItem jid sid cid (.jobj fs) =
        { job_id := jid, site_id := sid, category_id := cid,
          item_id := jsToStringU (jsGetField (.jobj fs) "id"),
          title := jsCoalesce (jsGetField (.jobj fs) "title"),
          permalink := jsCoalesce (jsGetField (.jobj fs) "permalink"),
          price := jsCoalesce (jsGetField (.jobj fs) "price"),
          currency_id := jsCoalesce (jsGetField (.jobj fs) "currency_id"),
          seller_id :=
            match jsCoalesce (optChainSellerId (jsGetField (.jobj fs) "seller")) with
            | some v => some v
            | none => jsCoalesce (jsGetField (.jobj fs) "seller_id"),
          raw := .jobj fs }) ∧
      normalizeItem jid sid cid
          (.jobj [("id", .jstr "MLC111"), ("title", .jstr "X"), ("price", .jnum 10),
            ("currency_id", .jstr "CLP"), ("seller", .jobj [("id", .jnum 555)]),
            ("seller_id", .jnum 777)]) =
        { job_id := jid, site_id := sid, category_id := cid, item_id := "MLC111",
          title := some (.jstr "X"), permalink := none, price := some (.jnum 10),
          currency_id := some (.jstr "CLP"), seller_id := some (.jnum 555),
          raw := .jobj [("id", .jstr "MLC111"), ("title", .jstr "X"), ("price", .jnum 10),
            ("currency_id", .jstr "CLP"), ("seller", .jobj [("id", .jnum 555)]),
            ("seller_id", .jnum 777)] } ∧
      normalizeItem jid sid cid (.jobj [("id", .jstr "MLC112"), ("seller_id", .jnum 777)]) =
        { job_id := jid, site_id := sid, category_id := cid, item_id := "MLC112",
          title := none, permalink := none, price := none, currency_id := none,
          seller_id := some (.jnum 777),
          raw := .jobj [("id", .jstr "MLC112"), ("seller_id", .jnum 777)] } := by
  intro jid sid cid
  exact ⟨fun s => rfl, fun it => rfl, fun fs => rfl, rfl, rfl⟩

/-- Claim C9: when `site_id` is absent from the body, both arms of the
country conditional on line 116 yield "MLC", so the resolved site is
"MLC" whatever `country` holds. -/
theorem claim_C9 :
    ∀ country : Option String, resolveSiteId none country = "MLC" := by
  intro country
  show (if country = some "CL" then "MLC" else "MLC") = "MLC"
  split <;> rfl

/-- Claim C1: for a seller-mode job whose first (public) fetch returns
401, exactly one token refresh and exactly one authenticated retry of
the same URL occur; if the retried private fetch also returns 401, the
job falls through to the ordinary non-success failure path (error
status, marketplace-failure entry) with no further refresh or retry. -/
theorem claim_C1 (env : Env) (site_id : String) (limit : Int) (st : TokState)
    (j : Job) (rtr : List Effect) (a2 r2 : String)
    (hs : isSellerJob j = true)
    (h401 : (env.publicResp (jobUrl site_id limit j)).status = 401)
    (hre : refreshTokenM env st.refreshTok = (rtr, .ok (a2, r2))) :
    countRefresh (processJob env site_id limit st j).trace = 1 ∧
    countPrivateFetch (processJob env site_id limit st j).trace = 1 ∧
    ((env.privateResp (jobUrl site_id limit j) a2).status = 401 →
      (processJob env site_id limit st j).outcome =
        .ok (⟨a2, r2⟩, .mlFailure j.id j.category_id 401
          (responsePayload (env.privateResp (jobUrl site_id limit j) a2)), 0) ∧
      statusesFor j.id (processJob env site_id limit st j).trace =
        ["processing", "error"]) := by
  have hrtr := refreshTokenM_ok_inv env st.refreshTok rtr a2 r2 hre
  subst hrtr
  have hfp := fetchPhase_seller401 env site_id limit st j _ a2 r2 hs h401 hre
  rw [processJob_of_fetchPhase_ok env site_id limit st _ j _ _ hfp]
  refine ⟨?_, ?_, ?_⟩
  · rw [(finishJob_counts env site_id _ j _ _).1]
    simp [countRefresh, isRefreshCall, markProcessingUpd]
  · rw [(finishJob_counts env site_id _ j _ _).2]
    simp [countPrivateFetch, isPrivateFetch, markProcessingUpd]
  · intro hp401
    have hnok : statusOk (env.privateResp (jobUrl site_id limit j) a2).status = false := by
      rw [hp401]
      decide
    rw [finishJob_mlError env site_id _ j _ _ hnok]
    refine ⟨?_, ?_⟩
    · dsimp only
      rw [hp401]
    · dsimp only
      simp [statusesFor, List.filterMap_append, mlErrorUpd, markProcessingUpd]

/-- Oracle for the C1 witness: both the public fetch and the retried
private fetch return 401; the refresh succeeds with pair (A2, R2). -/
def envC1 : Env :=
  { jobsResult := .ok []
    latestRow := .ok none
    oauthResp := fun _ =>
      ⟨200, some (.jobj [("access_token", .jstr "A2"), ("refresh_token", .jstr "R2")])⟩
    tokenWriteErr := none
    publicResp := fun _ => ⟨401, none⟩
    privateResp := fun _ _ => ⟨401, none⟩
    upsertErr := fun _ => none }

def jobC1 : Job := ⟨9, "MLC", "SELLER:555", "pending", some 0⟩

theorem claim_C1_witness :
    countRefresh (processJob envC1 "MLC" 50 ⟨"A", "R"⟩ jobC1).trace = 1 ∧
    countPrivateFetch (processJob envC1 "MLC" 50 ⟨"A", "R"⟩ jobC1).trace = 1 ∧
    (processJob envC1 "MLC" 50 ⟨"A", "R"⟩ jobC1).outcome =
      .ok (⟨"A2", "R2"⟩, .mlFailure 9 "SELLER:555" 401 (.jobj []), 0) ∧
    statusesFor 9 (processJob envC1 "MLC" 50 ⟨"A", "R"⟩ jobC1).trace =
      ["processing", "error"] := by
  obtain ⟨h1, h2, h3⟩ := claim_C1 envC1 "MLC" 50 ⟨"A", "R"⟩ jobC1
    [.refreshCall "R", .tokenWrite] "A2" "R2" rfl rfl rfl
  obtain ⟨h4, h5⟩ := h3 rfl
  exact ⟨h1, h2, h4, h5⟩

/-- Claim C2: a category-mode job never triggers the private fetch nor
the token-refresh logic: its marketplace call is the single anonymous
public fetch, whatever the response. -/
theorem claim_C2 (env : Env) (site_id : String) (limit : Int) (st : TokState)
    (j : Job) (h : isSellerJob j = false) :
    countRefresh (processJob env site_id limit st j).trace = 0 ∧
    countPrivateFetch (processJob env site_id limit st j).trace = 0 := by
  have hfp := fetchPhase_category env site_id limit st j h
  rw [processJob_of_fetchPhase_ok env site_id limit st st j _ _ hfp]
  refine ⟨?_, ?_⟩
  · rw [(finishJob_counts env site_id st j _ _).1]
    simp [countRefresh, isRefreshCall, markProcessingUpd]
  · rw [(finishJob_counts env site_id st j _ _).2]
    simp [countPrivateFetch, isPrivateFetch, markProcessingUpd]

/-- Oracle for the C2 witness: even a 401 public response on a
category job triggers nothing. -/
def envC2 : Env :=
  { jobsResult := .ok []
    latestRow := .ok none
    oauthResp := fun _ => ⟨200, none⟩
    tokenWriteErr := none
    publicResp := fun _ => ⟨401, none⟩
    privateResp := fun _ _ => ⟨200, none⟩
    upsertErr := fun _ => none }

def jobC2 : Job := ⟨7, "MLC", "MLC1234", "pending", some 0⟩

theorem claim_C2_witness :
    countRefresh (processJob envC2 "MLC" 50 ⟨"A", "R"⟩ jobC2).trace = 0 ∧
    countPrivateFetch (processJob envC2 "MLC" 50 ⟨"A", "R"⟩ jobC2).trace = 0 :=
  claim_C2 envC2 "MLC" 50 ⟨"A", "R"⟩ jobC2 rfl

/-- Two pending seller jobs whose public fetches both return 401, with
an always-succeeding refresh oracle. -/
def jobsC3 : List Job :=
  [⟨1, "MLC", "SELLER:111", "pending", some 0⟩,
   ⟨2, "MLC", "SELLER:222", "pending", some 0⟩]

def envC3 : Env :=
  { jobsResult := .ok jobsC3
    latestRow := .ok (some ⟨"u1", some "A0", some "R0"⟩)
    oauthResp := fun t =>
      ⟨200, some (.jobj [("access_token", .jstr ("A-" ++ t)),
        ("refresh_token", .jstr ("R-" ++ t))])⟩
    tokenWriteErr := none
    publicResp := fun _ => ⟨401, none⟩
    privateResp := fun _ _ => ⟨200, some (.jarr [.jstr "MLC999"])⟩
    upsertErr := fun _ => none }

def reqC3 : Request := ⟨"POST", none, none⟩

/-- Counterexample to claim C3: in one invocation with two seller jobs
whose public fetches both return 401, the credential pair is refreshed
(and written) twice, not at most once; the second refresh call sends the
refresh token produced by the first ("R-R0"), not the original "R0". -/
theorem claim_C3_cex :
    countRefresh (scanWorker reqC3 envC3).2 = 2 ∧
    countTokenWrite (scanWorker reqC3 envC3).2 = 2 ∧
    refreshArgs (scanWorker reqC3 envC3).2 = ["R0", "R-R0"] ∧
    ¬ countRefresh (scanWorker reqC3 envC3).2 ≤ 1 := by
  have h2 : countRefresh (scanWorker reqC3 envC3).2 = 2 := rfl
  exact ⟨h2, rfl, rfl, by rw [h2]; decide⟩

/-- Claim C3 as amended: within one invocation the in-memory token pair
is mutated once per seller-mode job whose public fetch returns 401 —
possibly several times per invocation, not at most once — and each such
refresh sends the refresh token currently held, so a job that runs
after an earlier refresh starts from the refreshed pair (but still
performs its own refresh rather than reusing the pair silently). -/
theorem claim_C3_amended (env : Env) (site_id : String) (limit : Int)
    (hrs : ∀ t, statusOk (env.oauthResp t).status = true)
    (hwr : env.tokenWriteErr = none) :
    (∀ (jobs : List Job) (st : TokState),
      countRefresh (runJobs env site_id limit st jobs).trace =
        (jobs.filter fun j =>
          isSellerJob j &&
            ((env.publicResp (jobUrl site_id limit j)).status == 401)).length) ∧
    (∀ (st : TokState) (j : Job),
      refreshArgs (processJob env site_id limit st j).trace =
        (if isSellerJob j && ((env.publicResp (jobUrl site_id limit j)).status == 401)
          then [st.refreshTok] else [])) :=
  ⟨fun jobs st => (countRefresh_runJobs env site_id limit hrs hwr jobs st).1,
   fun st j => refreshArgs_processJob env site_id limit st j hrs hwr⟩

theorem claim_C3_amended_witness :
    (∀ s, statusOk (envC3.oauthResp s).status = true) ∧
    envC3.tokenWriteErr = none ∧
    countRefresh (runJobs envC3 "MLC" 50 ⟨"A0", "R0"⟩ jobsC3).trace =
      (jobsC3.filter fun j =>
        isSellerJob j && ((envC3.publicResp (jobUrl "MLC" 50 j)).status == 401)).length ∧
    refreshArgs (processJob envC3 "MLC" 50 ⟨"A0", "R0"⟩
      ⟨1, "MLC", "SELLER:111", "pending", some 0⟩).trace = ["R0"] :=
  ⟨fun _ => rfl, rfl,
   (claim_C3_amended envC3 "MLC" 50 (fun _ => rfl) rfl).1 jobsC3 ⟨"A0", "R0"⟩,
   (claim_C3_amended envC3 "MLC" 50 (fun _ => rfl) rfl).2 ⟨"A0", "R0"⟩
     ⟨1, "MLC", "SELLER:111", "pending", some 0⟩⟩

/-- Claim C6: a job whose final marketplace response has a non-success
HTTP status is marked `error` with `last_error` embedding the status
code and the raw (stringified) body, a failure entry
`(job_id, category, ok:false, status, payload)` joins the batch
results, and processing continues with the next job: the remaining
jobs' results, abort state and count are untouched by this failure. -/
theorem claim_C6 (env : Env) (site_id : String) (limit : Int) (st st2 : TokState)
    (j : Job) (rest : List Job) (tr : List Effect) (r : MlResponse)
    (hfp : fetchPhase env site_id limit st j = (tr, .ok (st2, r)))
    (hnok : statusOk r.status = false) :
    processJob env site_id limit st j =
      { trace := tr ++ [.jobUpdate j.id "error"
          (some ("ML " ++ toString r.status ++ " " ++ jsonStringify (responsePayload r))) none]
        outcome := .ok (st2, .mlFailure j.id j.category_id r.status (responsePayload r), 0) } ∧
    (runJobs env site_id limit st (j :: rest)).results =
      .mlFailure j.id j.category_id r.status (responsePayload r) ::
        (runJobs env site_id limit st2 rest).results ∧
    (runJobs env site_id limit st (j :: rest)).aborted =
      (runJobs env site_id limit st2 rest).aborted ∧
    (runJobs env site_id limit st (j :: rest)).processed =
      1 + (runJobs env site_id limit st2 rest).processed := by
  have h1 : processJob env site_id limit st j =
      { trace := tr ++ [.jobUpdate j.id "error"
          (some ("ML " ++ toString r.status ++ " " ++ jsonStringify (responsePayload r))) none]
        outcome := .ok (st2, .mlFailure j.id j.category_id r.status (responsePayload r), 0) } := by
    rw [processJob_of_fetchPhase_ok env site_id limit st st2 j tr r hfp,
      finishJob_mlError env site_id st2 j tr r hnok]
    rfl
  have h2 := runJobs_cons_ok env site_id limit st st2 j rest _ _ _ h1
  exact ⟨h1, by rw [h2], by rw [h2], by rw [h2]⟩

/-- Oracle for the C6 witness: every fetch returns HTTP 500 with body
"boom". -/
def envC6 : Env :=
  { jobsResult := .ok []
    latestRow := .ok none
    oauthResp := fun _ => ⟨200, none⟩
    tokenWriteErr := none
    publicResp := fun _ => ⟨500, some (.jstr "boom")⟩
    privateResp := fun _ _ => ⟨200, none⟩
    upsertErr := fun _ => none }

def jobC6 : Job := ⟨7, "MLC", "MLC1234", "pending", some 0⟩

def jobC6b : Job := ⟨8, "MLC", "MLC9", "pending", some 0⟩

theorem claim_C6_witness :
    processJob envC6 "MLC" 50 ⟨"A", "R"⟩ jobC6 =
      { trace := [markProcessingUpd jobC6, .fetchPublic (jobUrl "MLC" 50 jobC6),
          .jobUpdate 7 "error" (some "ML 500 \"boom\"") none]
        outcome := .ok (⟨"A", "R"⟩, .mlFailure 7 "MLC1234" 500 (.jstr "boom"), 0) } ∧
    (runJobs envC6 "MLC" 50 ⟨"A", "R"⟩ [jobC6, jobC6b]).results =
      .mlFailure 7 "MLC1234" 500 (.jstr "boom") ::
        (runJobs envC6 "MLC" 50 ⟨"A", "R"⟩ [jobC6b]).results ∧
    (runJobs envC6 "MLC" 50 ⟨"A", "R"⟩ [jobC6, jobC6b]).aborted =
      (runJobs envC6 "MLC" 50 ⟨"A", "R"⟩ [jobC6b]).aborted ∧
    (runJobs envC6 "MLC" 50 ⟨"A", "R"⟩ [jobC6, jobC6b]).processed =
      1 + (runJobs envC6 "MLC" 50 ⟨"A", "R"⟩ [jobC6b]).processed := by
  obtain ⟨h1, h2, h3, h4⟩ := claim_C6 envC6 "MLC" 50 ⟨"A", "R"⟩ ⟨"A", "R"⟩ jobC6 [jobC6b]
    [markProcessingUpd jobC6, .fetchPublic (jobUrl "MLC" 50 jobC6)]
    ⟨500, some (.jstr "boom")⟩ rfl (by decide)
  exact ⟨h1, h2, h3, h4⟩

/-- Claim C7: with zero pending jobs for the requested site, the
response is the degenerate success `(ok:true, msg:no_jobs, site_id,
batch, limit)` and the effect trace is empty: no job update, no listing
upsert, no credential write (indeed not even the credential read). -/
theorem claim_C7 (req : Request) (env : Env)
    (hm : req.method = "POST") (hjobs : env.jobsResult = .ok []) :
    scanWorker req env =
      (.noJobs (reqSiteId req) (reqBatch req) (reqLimit req), []) ∧
    (scanWorker req env).2.filter isMutation = [] := by
  have h : scanWorker req env =
      (.noJobs (reqSiteId req) (reqBatch req) (reqLimit req), []) := by
    unfold scanWorker
    rw [hm, hjobs]
    simp
  exact ⟨h, by rw [h]; rfl⟩

def reqC7 : Request := ⟨"POST", some ⟨some "MLA", none, some 3, some 10⟩, none⟩

def envC7 : Env :=
  { jobsResult := .ok []
    latestRow := .ok none
    oauthResp := fun _ => ⟨200, none⟩
    tokenWriteErr := none
    publicResp := fun _ => ⟨200, none⟩
    privateResp := fun _ _ => ⟨200, none⟩
    upsertErr := fun _ => none }

theorem claim_C7_witness :
    scanWorker reqC7 envC7 = (.noJobs "MLA" 3 10, []) ∧
    (scanWorker reqC7 envC7).2.filter isMutation = [] :=
  ⟨(claim_C7 reqC7 envC7 rfl rfl).1, (claim_C7 reqC7 envC7 rfl rfl).2⟩

/-- When the credential lookup throws, the handler answers the
top-level failure with only the credential read performed. -/
theorem scanWorker_tokenErr (req : Request) (env : Env) (jobs : List Job) (e : String)
    (hm : req.method = "POST") (hjobs : env.jobsResult = .ok jobs) (hne : jobs ≠ [])
    (htok : getLatestTokenRes env = .error e) :
    scanWorker req env = (.failure e, [.tokenRead]) := by
  unfold scanWorker
  rw [hm, hjobs, htok]
  simp [hne]

/-- With a resolved credential, the handler's answer is determined by
the loop's outcome. -/
theorem scanWorker_run (req : Request) (env : Env) (jobs : List Job) (tok : TokenRow)
    (hm : req.method = "POST") (hjobs : env.jobsResult = .ok jobs) (hne : jobs ≠ [])
    (htok : getLatestTokenRes env = .ok tok) :
    scanWorker req env =
      (match (runJobs env (reqSiteId req) (reqLimit req) (initTokState req tok) jobs).aborted with
       | some e =>
         (.failure e,
          .tokenRead ::
            (runJobs env (reqSiteId req) (reqLimit req) (initTokState req tok) jobs).trace)
       | none =>
         (.success (reqSiteId req)
            (runJobs env (reqSiteId req) (reqLimit req) (initTokState req tok) jobs).processed
            (runJobs env (reqSiteId req) (reqLimit req) (initTokState req tok) jobs).inserted
            (reqTokenSource req)
            (runJobs env (reqSiteId req) (reqLimit req)
              (initTokState req tok) jobs).tokens.accessToken.length
            (runJobs env (reqSiteId req) (reqLimit req) (initTokState req tok) jobs).results,
          .tokenRead ::
            (runJobs env (reqSiteId req) (reqLimit req) (initTokState req tok) jobs).trace)) := by
  unfold scanWorker
  rw [hm, hjobs, htok]
  simp [hne]

/-- Claim C8: an invocation-level error — a NotFound failure resolving
the stored credential, or a refresh failure thrown inside the loop —
aborts the invocation and surfaces as the top-level failure response
`(ok:false, error)`; and in any failed invocation whose jobs have
distinct ids, every job's status writes are a prefix of
processing-then-final: jobs finalized (done/error) before the abort keep
that status, and no other job receives a final status. -/
theorem claim_C8 (req : Request) (env : Env) (jobs : List Job)
    (hm : req.method = "POST") (hjobs : env.jobsResult = .ok jobs) (hne : jobs ≠ []) :
    (∀ e2, getLatestTokenRes env = .error e2 →
      scanWorker req env = (.failure e2, [.tokenRead])) ∧
    (∀ tok, getLatestTokenRes env = .ok tok →
      ∀ e2, (runJobs env (reqSiteId req) (reqLimit req) (initTokState req tok) jobs).aborted
          = some e2 →
        scanWorker req env = (.failure e2,
          .tokenRead ::
            (runJobs env (reqSiteId req) (reqLimit req) (initTokState req tok) jobs).trace)) ∧
    (∀ e2 tr, scanWorker req env = (.failure e2, tr) →
      (jobs.map Job.id).Nodup →
      ∀ id, statusesFor id tr = [] ∨ statusesFor id tr = ["processing"] ∨
        statusesFor id tr = ["processing", "done"] ∨
        statusesFor id tr = ["processing", "error"]) := by
  refine ⟨?_, ?_, ?_⟩
  · intro e2 htok
    exact scanWorker_tokenErr req env jobs e2 hm hjobs hne htok
  · intro tok htok e2 hab
    rw [scanWorker_run req env jobs tok hm hjobs hne htok, hab]
  · intro e2 tr hfail hnd id
    rcases htok : getLatestTokenRes env with e3 | tok
    · rw [scanWorker_tokenErr req env jobs e3 hm hjobs hne htok] at hfail
      rw [Prod.mk.injEq] at hfail
      rw [← hfail.2]
      left
      rfl
    · rw [scanWorker_run req env jobs tok hm hjobs hne htok] at hfail
      rcases hab : (runJobs env (reqSiteId req) (reqLimit req)
          (initTokState req tok) jobs).aborted with _ | e3
      all_goals rw [hab] at hfail
      · simp at hfail
      · rw [Prod.mk.injEq] at hfail
        rw [← hfail.2]
        have hlift : statusesFor id (Effect.tokenRead ::
            (runJobs env (reqSiteId req) (reqLimit req) (initTokState req tok) jobs).trace) =
            statusesFor id
              ((runJobs env (reqSiteId req) (reqLimit req) (initTokState req tok) jobs).trace) := by
          simp [statusesFor]
        rw [hlift]
        exact statusesFor_runJobs id env (reqSiteId req) (reqLimit req) jobs
          (initTokState req tok) hnd

/-- Oracle for the C8 witness: one pending seller job whose public
fetch returns 401 and whose refresh is rejected by the OAuth endpoint,
aborting the invocation mid-batch. -/
def envC8 : Env :=
  { jobsResult := .ok [⟨3, "MLC", "SELLER:9", "pending", some 0⟩]
    latestRow := .ok (some ⟨"u1", some "A0", some "R0"⟩)
    oauthResp := fun _ => ⟨400, some (.jstr "invalid_grant")⟩
    tokenWriteErr := none
    publicResp := fun _ => ⟨401, none⟩
    privateResp := fun _ _ => ⟨200, none⟩
    upsertErr := fun _ => none }

def reqC8 : Request := ⟨"POST", none, none⟩

theorem claim_C8_witness :
    scanWorker reqC8 envC8 =
      (.failure "Refresh token failed: 400 \"invalid_grant\"",
        .tokenRead ::
          (runJobs envC8 (reqSiteId reqC8) (reqLimit reqC8)
            (initTokState reqC8 ⟨"u1", some "A0", some "R0"⟩)
            [⟨3, "MLC", "SELLER:9", "pending", some 0⟩]).trace) ∧
    (∀ id, statusesFor id (scanWorker reqC8 envC8).2 = [] ∨
      statusesFor id (scanWorker reqC8 envC8).2 = ["processing"] ∨
      statusesFor id (scanWorker reqC8 envC8).2 = ["processing", "done"] ∨
      statusesFor id (scanWorker reqC8 envC8).2 = ["processing", "error"]) := by
  obtain ⟨h1, h2, h3⟩ := claim_C8 reqC8 envC8 [⟨3, "MLC", "SELLER:9", "pending", some 0⟩]
    rfl rfl (by simp)
  have hrun := h2 ⟨"u1", some "A0", some "R0"⟩ rfl "Refresh token failed: 400 \"invalid_grant\"" rfl
  exact ⟨hrun, fun id => h3 _ _ hrun (by simp) id⟩

/-- Claim C10: even when the caller supplies a bearer credential in the
header and pending jobs exist, the stored-credential lookup still runs;
when it fails — no stored row, or a row whose access or refresh token is
null/empty — the whole invocation aborts with the top-level NotFound
failure, performing no job processing at all. -/
theorem claim_C10 (req : Request) (env : Env) (jobs : List Job) (e : String)
    (hm : req.method = "POST") (hjobs : env.jobsResult = .ok jobs) (hne : jobs ≠ [])
    (_hdr : reqBearer req ≠ "")
    (htok : getLatestTokenRes env = .error e) :
    scanWorker req env = (.failure e, [.tokenRead]) ∧
    Effect.tokenRead ∈ (scanWorker req env).2 ∧
    (∀ row, env.latestRow = .ok (some row) →
      (strFalsy row.access_token || strFalsy row.refresh_token) = true →
      getLatestTokenRes env =
        .error "No token found in meli_oauth_tokens (missing access_token or refresh_token)") := by
  have h : scanWorker req env = (.failure e, [.tokenRead]) := by
    unfold scanWorker
    rw [hm, hjobs, htok]
    simp [hne]
  refine ⟨h, by rw [h]; exact List.mem_singleton.mpr rfl, ?_⟩
  intro row hrow hf
  unfold getLatestTokenRes
  rw [hrow]
  simp [hf]

/-- Oracle for the C10 witness: a stored row exists but its access
token is the empty string, so the lookup throws even though the caller
sent a bearer header. -/
def envC10 : Env :=
  { jobsResult := .ok [⟨4, "MLC", "MLC77", "pending", some 0⟩]
    latestRow := .ok (some ⟨"u1", some "", some "R0"⟩)
    oauthResp := fun _ => ⟨200, none⟩
    tokenWriteErr := none
    publicResp := fun _ => ⟨200, none⟩
    privateResp := fun _ _ => ⟨200, none⟩
    upsertErr := fun _ => none }

def reqC10 : Request := ⟨"POST", none, some "Bearer CALLER-TOKEN"⟩

theorem claim_C10_witness :
    scanWorker reqC10 envC10 =
      (.failure "No token found in meli_oauth_tokens (missing access_token or refresh_token)",
        [.tokenRead]) ∧
    Effect.tokenRead ∈ (scanWorker reqC10 envC10).2 ∧
    reqBearer reqC10 = "Bearer CALLER-TOKEN" := by
  obtain ⟨h1, h2, _⟩ := claim_C10 reqC10 envC10 [⟨4, "MLC", "MLC77", "pending", some 0⟩]
    "No token found in meli_oauth_tokens (missing access_token or refresh_token)"
    rfl rfl (by simp) (by decide) rfl
  exact ⟨h1, h2, rfl⟩

end MeliScan
